import Mathlib

/-!
Shallow embedding of the `gezeiten` ODE-integration package
(two fixed-step solvers, the family of Earth–Moon model right-hand sides,
and the ocean-mass fitting routine of exercise 2.3c), together with
theorems settling the specification claims about it.

Numbers are modelled by an arbitrary linear ordered field `K`
(instantiated with `ℚ` for concrete evaluations); the transcendental
primitives `sqrt`, `sin`, `cos` and the constant `π` used by the Python
code, as well as the physical constants from `gezeiten/constants.py`,
are packaged as an environment `Env K` so that every definition stays
computable and the algebraic structure of each formula is kept exactly
as in the source.
-/

namespace Gezeiten

/-- Environment packaging the transcendental primitives (`numpy.sqrt`,
`numpy.sin`, `numpy.cos`, `numpy.pi`) and the physical constants of
`gezeiten/constants.py` (`G`, `m_E`, `m_O`, `r_E`, `m_M`, `r_M`, `T_M`,
`k`, `tau`) as abstract elements of the number field. -/
structure Env (K : Type) where
  sqrt : K → K
  sin : K → K
  cos : K → K
  pi : K
  G : K
  m_E : K
  m_O : K
  r_E : K
  m_M : K
  r_M : K
  T_M : K
  k : K
  tau : K

variable {K : Type} [LinearOrderedField K]

/-- Derived constant `r_C = r_M * m_M / (m_M + m_E)` from
`gezeiten/constants.py`: distance of the Earth–Moon center of mass
from Earth. -/
def r_C (e : Env K) : K := e.r_M * e.m_M / (e.m_M + e.m_E)

/-- Elementwise sum of two state vectors (numpy `+` on arrays). -/
def vadd (v w : List K) : List K := List.zipWith (· + ·) v w

/-- Scalar times state vector (numpy `c * arr`). -/
def smul (c : K) (v : List K) : List K := v.map (fun x => c * x)

/-- State vector divided elementwise by a scalar (numpy `arr / c`). -/
def vdivs (v : List K) (c : K) : List K := v.map (fun x => x / c)

/-- Embedding of `numpy.arange(a, b, h)`: the values `a + i*h` for
`i < ⌈(b-a)/h⌉` (numpy computes exactly this count). -/
def arange [FloorRing K] (a b h : K) : List K :=
  (List.range (Int.toNat ⌈(b - a) / h⌉)).map (fun i : ℕ => a + (i : K) * h)

/-- Interface of `gezeiten.differential_equation.DifferentialEquation`
as seen by a solver: `initial_conditions`, `time_boundaries`,
`data_points_amount` and the right-hand side
`differential_equation_function`. -/
structure Model (K : Type) where
  initial_conditions : List K
  time_boundaries : K × K
  data_points_amount : ℕ
  f : K → List K → List K

/-- One Euler update as performed inside the loop of
`EulerSolver.solve`: `r + h * f(t, r)` (the loop variable `t` ranges
over `t_points[1:]`). -/
def eulerStep (m : Model K) (h t : K) (r : List K) : List K :=
  vadd r (smul h (m.f t r))

/-- Embedding of `EulerSolver.solve` from
`gezeiten/solvers/euler_solver.py`: `h = (b-a)/data_points_amount`,
`t_points = arange(a, b, h)`, initial row `initial_conditions`, and for
each `t` in `t_points[1:]` the update `r += h * f(t, r)`, appending the
new row. -/
def eulerSolve [FloorRing K] (m : Model K) : List K × List (List K) :=
  let a := m.time_boundaries.1
  let b := m.time_boundaries.2
  let h := (b - a) / (m.data_points_amount : K)
  let t_points := arange a b h
  (t_points,
   List.scanl (fun r t => eulerStep m h t r) m.initial_conditions (t_points.drop 1))

/-- One Runge–Kutta update as performed inside the loop of
`RungeKuttaSolver.solve` (the loop variable `t` ranges over
`t_points[1:]`): `k1 = h*f(t,r)`, `k2 = h*f(t+h/2, r+k1/2)`,
`k3 = h*f(t+h/2, r+k2/2)`, `k4 = h*f(t+h, r+k3)`, then
`r + (k1 + 2*k2 + 2*k3 + k4)/6`. -/
def rkStep (m : Model K) (h t : K) (r : List K) : List K :=
  let k1 := smul h (m.f t r)
  let k2 := smul h (m.f (t + h / 2) (vadd r (vdivs k1 2)))
  let k3 := smul h (m.f (t + h / 2) (vadd r (vdivs k2 2)))
  let k4 := smul h (m.f (t + h) (vadd r k3))
  vadd r (vdivs (vadd (vadd (vadd k1 (smul 2 k2)) (smul 2 k3)) k4) 6)

/-- Row buffer built by the loop of `RungeKuttaSolver.solve`. The
source initializes `r_points = [r]` with a reference to the state
array `r`, which is then updated in place (`r += ...`) before the
first `np.append(r_points, [r], axis=0)` copies any values: when the
loop body runs at least once, the first materialized row is therefore
the post-first-step state, duplicated by the append of the same
mutated array, and only from the second iteration on (where
`r_points` is already a value-copied `ndarray`) does each append
record a fresh state. When the loop body never runs the buffer stays
`[r]` with `r` still equal to `initial_conditions`. -/
def rkRows (m : Model K) (h : K) (ts : List K) : List (List K) :=
  match ts with
  | [] => [m.initial_conditions]
  | t1 :: rest =>
    let s1 := rkStep m h t1 m.initial_conditions
    s1 :: List.scanl (fun r t => rkStep m h t r) s1 rest

/-- Embedding of `RungeKuttaSolver.solve` from
`gezeiten/solvers/runge_kutta_solver.py`: same step size and `t_points`
as the Euler solver, state rows generated by `rkStep` for each `t` in
`t_points[1:]` and collected by `rkRows` (which reproduces the
aliasing of the first buffer row, see there). -/
def rkSolve [FloorRing K] (m : Model K) : List K × List (List K) :=
  let a := m.time_boundaries.1
  let b := m.time_boundaries.2
  let h := (b - a) / (m.data_points_amount : K)
  let t_points := arange a b h
  (t_points, rkRows m h (t_points.drop 1))

/-- Helper: the RK row buffer always holds one more row than there are
loop iterations. -/
theorem rkRows_length (m : Model K) (h : K) (ts : List K) :
    (rkRows m h ts).length = ts.length + 1 := by
  cases ts <;> simp [rkRows, List.length_scanl]

/-- With the exact step `h = (b-a)/n`, `numpy.arange(a, b, h)` is the
uniform grid `a + i*h` for `i < n`. -/
theorem arange_exact [FloorRing K] (a b : K) (n : ℕ) (hab : a < b) (hn : 1 ≤ n) :
    arange a b ((b - a) / (n : K)) =
      (List.range n).map (fun i : ℕ => a + (i : K) * ((b - a) / (n : K))) := by
  have hba : (0 : K) < b - a := sub_pos.mpr hab
  have hn0 : (0 : K) < (n : K) := by exact_mod_cast hn
  have hq : (b - a) / ((b - a) / (n : K)) = (n : K) := by
    field_simp
  unfold arange
  rw [hq]
  norm_num

/-- Successor entries of `List.scanl` via `getD`: entry `k+1` is the
step function applied to entry `k` and the `k`-th input. -/
theorem scanl_getD_succ {α β : Type} (f : β → α → β) (b : β) (l : List α)
    (dB : β) (dA : α) (kk : ℕ) (hk : kk < l.length) :
    (List.scanl f b l).getD (kk + 1) dB =
      f ((List.scanl f b l).getD kk dB) (l.getD kk dA) := by
  have h1 : kk + 1 < (List.scanl f b l).length := by
    rw [List.length_scanl]; omega
  rw [List.getD_eq_getElem _ _ h1,
      List.getD_eq_getElem _ _ (show kk < (List.scanl f b l).length by
        rw [List.length_scanl]; omega),
      List.getD_eq_getElem _ _ hk]
  exact List.getElem_succ_scanl h1

/-- Head entry of `List.scanl` via `getD`. -/
theorem scanl_getD_zero {α β : Type} (f : β → α → β) (b : β) (l : List α)
    (dB : β) : (List.scanl f b l).getD 0 dB = b := by
  cases l <;> simp [List.scanl_nil, List.scanl_cons]

/-- Helper: the `t_points` of both fixed-step solvers form the uniform
grid `t0 + i*h`, `i < n`, once `n ≥ 1` and `t1 > t0`. -/
theorem eulerSolve_t_points [FloorRing K] (m : Model K)
    (hab : m.time_boundaries.1 < m.time_boundaries.2)
    (hn : 1 ≤ m.data_points_amount) :
    (eulerSolve m).1 = (List.range m.data_points_amount).map
      (fun i : ℕ => m.time_boundaries.1 + (i : K) *
        ((m.time_boundaries.2 - m.time_boundaries.1) / (m.data_points_amount : K))) := by
  unfold eulerSolve
  exact arange_exact _ _ _ hab hn

/-- Helper: `rkSolve` samples the same `t_points` as `eulerSolve`. -/
theorem rkSolve_t_points [FloorRing K] (m : Model K) :
    (rkSolve m).1 = (eulerSolve m).1 := rfl

/-- C4: for every model with `t1 > t0` and `data_points_amount = n ≥ 1`,
both `EulerSolver.solve` and `RungeKuttaSolver.solve` return a
`t_points` sequence of exactly `n` values forming the half-open uniform
grid starting at `t0` with step `h = (t1-t0)/n`; the final boundary
`t1` is never included as a sampled point, and the returned state
series has exactly one row per time point. -/
theorem solvers_grid_and_lengths [FloorRing K] (m : Model K)
    (hab : m.time_boundaries.1 < m.time_boundaries.2)
    (hn : 1 ≤ m.data_points_amount) :
    (eulerSolve m).1.length = m.data_points_amount ∧
    (rkSolve m).1.length = m.data_points_amount ∧
    (∀ kk, kk < m.data_points_amount →
      (eulerSolve m).1.getD kk 0 = m.time_boundaries.1 + (kk : K) *
        ((m.time_boundaries.2 - m.time_boundaries.1) / (m.data_points_amount : K)) ∧
      (rkSolve m).1.getD kk 0 = m.time_boundaries.1 + (kk : K) *
        ((m.time_boundaries.2 - m.time_boundaries.1) / (m.data_points_amount : K))) ∧
    m.time_boundaries.2 ∉ (eulerSolve m).1 ∧
    m.time_boundaries.2 ∉ (rkSolve m).1 ∧
    (eulerSolve m).2.length = m.data_points_amount ∧
    (rkSolve m).2.length = m.data_points_amount := by
  have ht := eulerSolve_t_points m hab hn
  have htrk : (rkSolve m).1 = (eulerSolve m).1 := rfl
  have hlen1 : (eulerSolve m).1.length = m.data_points_amount := by
    rw [ht]; simp
  have hget : ∀ kk, kk < m.data_points_amount →
      (eulerSolve m).1.getD kk 0 = m.time_boundaries.1 + (kk : K) *
        ((m.time_boundaries.2 - m.time_boundaries.1) / (m.data_points_amount : K)) := by
    intro kk hkk
    rw [ht, List.getD_eq_getElem _ _ (by simpa using hkk)]
    simp
  have hnotmem : m.time_boundaries.2 ∉ (eulerSolve m).1 := by
    rw [ht]
    intro hmem
    obtain ⟨i, hi, hival⟩ := List.mem_map.mp hmem
    rw [List.mem_range] at hi
    have hba : (0 : K) < m.time_boundaries.2 - m.time_boundaries.1 := sub_pos.mpr hab
    have hn0 : (0 : K) < (m.data_points_amount : K) := by exact_mod_cast hn
    have hh : (0 : K) <
        (m.time_boundaries.2 - m.time_boundaries.1) / (m.data_points_amount : K) :=
      div_pos hba hn0
    have hilt : (i : K) < (m.data_points_amount : K) := by exact_mod_cast hi
    have hmul : (i : K) *
        ((m.time_boundaries.2 - m.time_boundaries.1) / (m.data_points_amount : K)) <
        (m.data_points_amount : K) *
        ((m.time_boundaries.2 - m.time_boundaries.1) / (m.data_points_amount : K)) :=
      mul_lt_mul_of_pos_right hilt hh
    have hfull : (m.data_points_amount : K) *
        ((m.time_boundaries.2 - m.time_boundaries.1) / (m.data_points_amount : K)) =
        m.time_boundaries.2 - m.time_boundaries.1 := by
      field_simp
    rw [hfull] at hmul
    have : m.time_boundaries.1 + (i : K) *
        ((m.time_boundaries.2 - m.time_boundaries.1) / (m.data_points_amount : K)) <
        m.time_boundaries.2 := by linarith
    exact absurd hival (ne_of_lt this)
  have hlen2e : (eulerSolve m).2.length = m.data_points_amount := by
    have : (eulerSolve m).2 =
        List.scanl (fun r t => eulerStep m
          ((m.time_boundaries.2 - m.time_boundaries.1) / (m.data_points_amount : K)) t r)
          m.initial_conditions ((eulerSolve m).1.drop 1) := rfl
    rw [this, List.length_scanl, List.length_drop, hlen1]
    omega
  have hlen2r : (rkSolve m).2.length = m.data_points_amount := by
    have hrr : (rkSolve m).2 = rkRows m
        ((m.time_boundaries.2 - m.time_boundaries.1) / (m.data_points_amount : K))
        ((rkSolve m).1.drop 1) := rfl
    rw [hrr, rkRows_length, List.length_drop, htrk, hlen1]
    omega
  refine ⟨hlen1, by rw [htrk]; exact hlen1, fun kk hkk => ⟨hget kk hkk, ?_⟩,
    hnotmem, by rw [htrk]; exact hnotmem, hlen2e, hlen2r⟩
  rw [htrk]; exact hget kk hkk

/-- Probe model over `ℚ` with a time-dependent right-hand side
`f(t, r) = [t]`, time boundaries `(0, 2)` and two data points; it makes
visible at which time a fixed-step solver evaluates the right-hand
side. -/
def probeModel : Model ℚ where
  initial_conditions := [0]
  time_boundaries := (0, 2)
  data_points_amount := 2
  f := fun t _ => [t]

/-- Probe model over `ℚ` with a single data point, for the degenerate
single-step case. -/
def probeModel1 : Model ℚ where
  initial_conditions := [3, 7]
  time_boundaries := (1, 5)
  data_points_amount := 1
  f := fun t _ => [t, t]

/-- C4 witness: the hypotheses hold and the theorem applies for a
concrete model with `time_boundaries = (0, 2)` and two data points. -/
theorem solvers_grid_and_lengths_witness :
    probeModel.time_boundaries.1 < probeModel.time_boundaries.2 ∧
    1 ≤ probeModel.data_points_amount ∧
    (eulerSolve probeModel).1.length = probeModel.data_points_amount :=
  ⟨by norm_num [probeModel], by norm_num [probeModel],
   (solvers_grid_and_lengths probeModel (by norm_num [probeModel])
     (by norm_num [probeModel])).1⟩

/-- C8: for `data_points_amount = 1` and `t1 > t0`, both solvers return
exactly one sampled time point (equal to `t0`) and exactly one state
row equal to `initial_conditions`, with `h = t1 - t0`. -/
theorem solvers_single_point [FloorRing K] (m : Model K)
    (hab : m.time_boundaries.1 < m.time_boundaries.2)
    (hn : m.data_points_amount = 1) :
    eulerSolve m = ([m.time_boundaries.1], [m.initial_conditions]) ∧
    rkSolve m = ([m.time_boundaries.1], [m.initial_conditions]) ∧
    (m.time_boundaries.2 - m.time_boundaries.1) / (m.data_points_amount : K) =
      m.time_boundaries.2 - m.time_boundaries.1 := by
  have ht := eulerSolve_t_points m hab (by omega)
  rw [hn] at ht
  have ht1 : (eulerSolve m).1 = [m.time_boundaries.1] := by
    rw [ht]
    simp [List.range_succ]
  have he2 : (eulerSolve m).2 =
      List.scanl (fun r t => eulerStep m
        ((m.time_boundaries.2 - m.time_boundaries.1) / (m.data_points_amount : K)) t r)
        m.initial_conditions ((eulerSolve m).1.drop 1) := rfl
  have hr2 : (rkSolve m).2 = rkRows m
      ((m.time_boundaries.2 - m.time_boundaries.1) / (m.data_points_amount : K))
      ((rkSolve m).1.drop 1) := rfl
  refine ⟨?_, ?_, ?_⟩
  · refine Prod.ext ht1 ?_
    rw [he2, ht1]
    simp
  · refine Prod.ext (by rw [rkSolve_t_points]; exact ht1) ?_
    rw [hr2, rkSolve_t_points, ht1]
    simp [rkRows]
  · rw [hn]
    norm_num

/-- C8 witness: a concrete single-point model over `ℚ` satisfying the
hypotheses, for which both solvers return the degenerate solution. -/
theorem solvers_single_point_witness :
    (probeModel1.time_boundaries.1 < probeModel1.time_boundaries.2 ∧
      probeModel1.data_points_amount = 1) ∧
    eulerSolve probeModel1 =
      ([probeModel1.time_boundaries.1], [probeModel1.initial_conditions]) :=
  ⟨⟨by norm_num [probeModel1], by norm_num [probeModel1]⟩,
   (solvers_single_point probeModel1 (by norm_num [probeModel1])
     (by norm_num [probeModel1])).1⟩

/-- C1 (amended): the state series of `EulerSolver.solve` satisfies
`state_{k+1} = state_k + h * rhs(t_{k+1}, state_k)` with
`h = (t1-t0)/n` and `t_{k+1} = t0 + (k+1)*h`; the right-hand side is
evaluated at the time of the point being produced, not at the time
`t_k` of the previous sample. -/
theorem euler_step_recurrence [FloorRing K] (m : Model K)
    (hab : m.time_boundaries.1 < m.time_boundaries.2)
    (kk : ℕ) (hk : kk + 1 < m.data_points_amount) :
    (eulerSolve m).2.getD (kk + 1) [] =
      eulerStep m
        ((m.time_boundaries.2 - m.time_boundaries.1) / (m.data_points_amount : K))
        (m.time_boundaries.1 + ((kk : K) + 1) *
          ((m.time_boundaries.2 - m.time_boundaries.1) / (m.data_points_amount : K)))
        ((eulerSolve m).2.getD kk []) := by
  have hn : 1 ≤ m.data_points_amount := by omega
  have ht := eulerSolve_t_points m hab hn
  have he2 : (eulerSolve m).2 =
      List.scanl (fun r t => eulerStep m
        ((m.time_boundaries.2 - m.time_boundaries.1) / (m.data_points_amount : K)) t r)
        m.initial_conditions ((eulerSolve m).1.drop 1) := rfl
  have hlend : kk < ((eulerSolve m).1.drop 1).length := by
    rw [List.length_drop, ht]; simp; omega
  rw [he2, scanl_getD_succ _ _ _ _ 0 kk hlend]
  have htk : ((eulerSolve m).1.drop 1).getD kk 0 =
      m.time_boundaries.1 + ((kk : K) + 1) *
        ((m.time_boundaries.2 - m.time_boundaries.1) / (m.data_points_amount : K)) := by
    have h1k : 1 + kk < m.data_points_amount := by omega
    rw [List.getD_eq_getElem _ _ hlend, List.getElem_drop]
    simp only [ht, List.getElem_map, List.getElem_range]
    push_cast
    ring
  rw [htk]

/-- C1 witness: the amended Euler recurrence holds at step 0 of the
concrete probe model. -/
theorem euler_step_recurrence_witness :
    (probeModel.time_boundaries.1 < probeModel.time_boundaries.2 ∧
      0 + 1 < probeModel.data_points_amount) ∧
    (eulerSolve probeModel).2.getD (0 + 1) [] =
      eulerStep probeModel
        ((probeModel.time_boundaries.2 - probeModel.time_boundaries.1) /
          (probeModel.data_points_amount : ℚ))
        (probeModel.time_boundaries.1 + (((0 : ℕ) : ℚ) + 1) *
          ((probeModel.time_boundaries.2 - probeModel.time_boundaries.1) /
            (probeModel.data_points_amount : ℚ)))
        ((eulerSolve probeModel).2.getD 0 []) :=
  ⟨⟨by norm_num [probeModel], by norm_num [probeModel]⟩,
   euler_step_recurrence probeModel (by norm_num [probeModel]) 0
     (by norm_num [probeModel])⟩

/-- C1 counterexample: for the probe model (time-dependent right-hand
side `f(t, r) = [t]`, boundaries `(0, 2)`, two data points, so `h = 1`
and `t_0 = 0`), the claimed update
`state_1 = state_0 + h * rhs(t_0, state_0)` is false: the code computes
`state_1 = [1]` (evaluating the right-hand side at `t_1 = 1`) while the
claimed formula yields `[0]`. -/
theorem euler_step_at_tk_counterexample :
    ¬ ((eulerSolve probeModel).2.getD 1 [] =
        eulerStep probeModel
          ((probeModel.time_boundaries.2 - probeModel.time_boundaries.1) /
            (probeModel.data_points_amount : ℚ))
          ((eulerSolve probeModel).1.getD 0 0)
          ((eulerSolve probeModel).2.getD 0 [])) := by
  have hts : (eulerSolve probeModel).1 = [0, 1] := by
    show arange 0 2 ((2 - 0) / ((2 : ℕ) : ℚ)) = [0, 1]
    unfold arange
    norm_num
    rw [show Int.toNat 2 = 2 from rfl]
    simp [List.range_succ]
  have hst : (eulerSolve probeModel).2 = [[0], [1]] := by
    have he2 : (eulerSolve probeModel).2 =
        List.scanl (fun r t => eulerStep probeModel
          ((probeModel.time_boundaries.2 - probeModel.time_boundaries.1) /
            (probeModel.data_points_amount : ℚ)) t r)
          probeModel.initial_conditions ((eulerSolve probeModel).1.drop 1) := rfl
    rw [he2, hts]
    simp [probeModel, eulerStep, vadd, smul]
  rw [hst, hts]
  simp [probeModel, eulerStep, vadd, smul]

/-- Probe model over `ℚ` with three data points (`f(t, r) = [t]`,
boundaries `(0, 3)`, `h = 1`), for exercising the Runge–Kutta row
recurrence beyond the duplicated first row. -/
def probeModel3 : Model ℚ where
  initial_conditions := [0]
  time_boundaries := (0, 3)
  data_points_amount := 3
  f := fun t _ => [t]

/-- C2 (amended): with `h = (t1-t0)/n` and `n ≥ 2`, the four stage
derivatives and the update `s + (k1+2*k2+2*k3+k4)/6` of
`RungeKuttaSolver.solve` are computed as claimed, except that (a) the
stages of the step producing point `k+1` are based at
`t_{k+1} = t0 + (k+1)*h` (stages at `t_{k+1}`, `t_{k+1}+h/2`,
`t_{k+1}+h/2`, `t_{k+1}+h`), not at the sampled time `t_k`, and (b)
because the row buffer is initialized with a reference to the
in-place-updated state array, the first returned row is not the
initial state but a duplicate of the post-first-step state:
`row_0 = rkStep(t_1, initial_conditions)`, `row_1 = row_0`, and for
every `k ≥ 1` the returned rows satisfy
`row_{k+1} = rkStep(t_{k+1}, row_k)`. -/
theorem rk_step_recurrence [FloorRing K] (m : Model K)
    (hab : m.time_boundaries.1 < m.time_boundaries.2)
    (hn2 : 2 ≤ m.data_points_amount) :
    (rkSolve m).2.getD 0 [] =
      rkStep m
        ((m.time_boundaries.2 - m.time_boundaries.1) / (m.data_points_amount : K))
        (m.time_boundaries.1 +
          (m.time_boundaries.2 - m.time_boundaries.1) / (m.data_points_amount : K))
        m.initial_conditions ∧
    (rkSolve m).2.getD 1 [] = (rkSolve m).2.getD 0 [] ∧
    (∀ kk : ℕ, 1 ≤ kk → kk + 1 < m.data_points_amount →
      (rkSolve m).2.getD (kk + 1) [] =
        rkStep m
          ((m.time_boundaries.2 - m.time_boundaries.1) / (m.data_points_amount : K))
          (m.time_boundaries.1 + ((kk : K) + 1) *
            ((m.time_boundaries.2 - m.time_boundaries.1) / (m.data_points_amount : K)))
          ((rkSolve m).2.getD kk [])) := by
  have hn : 1 ≤ m.data_points_amount := by omega
  have ht : (rkSolve m).1 = (List.range m.data_points_amount).map
      (fun i : ℕ => m.time_boundaries.1 + (i : K) *
        ((m.time_boundaries.2 - m.time_boundaries.1) / (m.data_points_amount : K))) :=
    eulerSolve_t_points m hab hn
  have hr2 : (rkSolve m).2 = rkRows m
      ((m.time_boundaries.2 - m.time_boundaries.1) / (m.data_points_amount : K))
      ((rkSolve m).1.drop 1) := rfl
  have hdlen : ((rkSolve m).1.drop 1).length = m.data_points_amount - 1 := by
    rw [List.length_drop, ht]; simp
  have hdget : ∀ idx : ℕ, idx < m.data_points_amount - 1 →
      ((rkSolve m).1.drop 1).getD idx 0 = m.time_boundaries.1 + ((idx : K) + 1) *
        ((m.time_boundaries.2 - m.time_boundaries.1) / (m.data_points_amount : K)) := by
    intro idx hidx
    rw [List.getD_eq_getElem _ _ (by rw [hdlen]; omega), List.getElem_drop]
    simp only [ht, List.getElem_map, List.getElem_range]
    push_cast
    ring
  obtain ⟨t1, rest, hcons⟩ : ∃ t1 rest, (rkSolve m).1.drop 1 = t1 :: rest := by
    rcases hd : (rkSolve m).1.drop 1 with _ | ⟨t1, rest⟩
    · rw [hd] at hdlen
      simp at hdlen
      omega
    · exact ⟨t1, rest, rfl⟩
  have ht1 : t1 = m.time_boundaries.1 +
      (m.time_boundaries.2 - m.time_boundaries.1) / (m.data_points_amount : K) := by
    have h0 := hdget 0 (by omega)
    rw [hcons, List.getD_cons_zero] at h0
    rw [h0]
    push_cast
    ring
  have hrows : (rkSolve m).2 =
      rkStep m ((m.time_boundaries.2 - m.time_boundaries.1) / (m.data_points_amount : K))
        t1 m.initial_conditions ::
      List.scanl (fun r t => rkStep m
        ((m.time_boundaries.2 - m.time_boundaries.1) / (m.data_points_amount : K)) t r)
        (rkStep m ((m.time_boundaries.2 - m.time_boundaries.1) / (m.data_points_amount : K))
          t1 m.initial_conditions) rest := by
    rw [hr2, hcons]
    rfl
  refine ⟨?_, ?_, ?_⟩
  · rw [hrows, List.getD_cons_zero, ht1]
  · rw [hrows, List.getD_cons_succ, List.getD_cons_zero, scanl_getD_zero]
  · intro kk hk1 hk
    obtain ⟨j, rfl⟩ : ∃ j, kk = j + 1 := ⟨kk - 1, by omega⟩
    have hrestlen : rest.length = m.data_points_amount - 2 := by
      rw [hcons] at hdlen
      simp at hdlen
      omega
    have hj : j < rest.length := by omega
    have hrget : rest.getD j 0 = m.time_boundaries.1 + (((j + 1 : ℕ) : K) + 1) *
        ((m.time_boundaries.2 - m.time_boundaries.1) / (m.data_points_amount : K)) := by
      have h1 := hdget (j + 1) (by omega)
      rw [hcons, List.getD_cons_succ] at h1
      exact h1
    rw [hrows, List.getD_cons_succ, List.getD_cons_succ,
      scanl_getD_succ _ _ _ _ 0 j hj]
    show rkStep m _ (rest.getD j 0) _ = _
    rw [hrget]

/-- C2 witness: the amended Runge–Kutta row facts hold for the
concrete three-point probe model, including the recurrence at step
`kk = 1`. -/
theorem rk_step_recurrence_witness :
    (probeModel3.time_boundaries.1 < probeModel3.time_boundaries.2 ∧
      2 ≤ probeModel3.data_points_amount ∧
      (1 : ℕ) ≤ 1 ∧ 1 + 1 < probeModel3.data_points_amount) ∧
    (rkSolve probeModel3).2.getD (1 + 1) [] =
      rkStep probeModel3
        ((probeModel3.time_boundaries.2 - probeModel3.time_boundaries.1) /
          (probeModel3.data_points_amount : ℚ))
        (probeModel3.time_boundaries.1 + (((1 : ℕ) : ℚ) + 1) *
          ((probeModel3.time_boundaries.2 - probeModel3.time_boundaries.1) /
            (probeModel3.data_points_amount : ℚ)))
        ((rkSolve probeModel3).2.getD 1 []) :=
  ⟨⟨by norm_num [probeModel3], by norm_num [probeModel3],
    by norm_num, by norm_num [probeModel3]⟩,
   (rk_step_recurrence probeModel3 (by norm_num [probeModel3])
     (by norm_num [probeModel3])).2.2 1 (by norm_num)
     (by norm_num [probeModel3])⟩

/-- C2 counterexample: for the probe model (`f(t, r) = [t]`,
boundaries `(0, 2)`, two data points, `h = 1`, `t_0 = 0`), the claimed
step `state_1 = state_0 + (k1+2*k2+2*k3+k4)/6` with stages based at
the sampled time `t_0` is false of the returned rows: the code returns
rows `[[3/2], [3/2]]` (the buffer aliases the state updated with
stages based at `t_1 = 1`, duplicating the post-first-step value),
while the claimed formula applied to row 0 yields `[2]`. -/
theorem rk_step_at_tk_counterexample :
    ¬ ((rkSolve probeModel).2.getD 1 [] =
        rkStep probeModel
          ((probeModel.time_boundaries.2 - probeModel.time_boundaries.1) /
            (probeModel.data_points_amount : ℚ))
          ((rkSolve probeModel).1.getD 0 0)
          ((rkSolve probeModel).2.getD 0 [])) := by
  have hts : (rkSolve probeModel).1 = [0, 1] := by
    show arange 0 2 ((2 - 0) / ((2 : ℕ) : ℚ)) = [0, 1]
    unfold arange
    norm_num
    rw [show Int.toNat 2 = 2 from rfl]
    simp [List.range_succ]
  have hst : (rkSolve probeModel).2 = [[3 / 2], [3 / 2]] := by
    have hr2 : (rkSolve probeModel).2 = rkRows probeModel
        ((probeModel.time_boundaries.2 - probeModel.time_boundaries.1) /
          (probeModel.data_points_amount : ℚ))
        ((rkSolve probeModel).1.drop 1) := rfl
    rw [hr2, hts]
    simp [rkRows, probeModel, rkStep, vadd, vdivs, smul]
    norm_num
  rw [hst, hts]
  simp [probeModel, rkStep, vadd, vdivs, smul]
  norm_num

/-- Embedding of `TwoBodyProblem.initial_conditions` from
`gezeiten/differential_equations/two_body_problem.py`. -/
def twoBodyInitialConditions (e : Env K) : List K :=
  [-r_C e,
   0,
   0,
   -2 * e.pi * r_C e / e.T_M,
   e.r_M - r_C e,
   0,
   0,
   2 * e.pi * (e.r_M - r_C e) / e.T_M]

/-- Embedding of the static method `TwoBodyProblem.f`: Newtonian
gravity between Earth and Moon point masses; unpacking a state vector
of the wrong length raises in Python, modelled as `none`. -/
def twoBodyProblem_f (e : Env K) (t : K) (r : List K) : Option (List K) :=
  match r with
  | [x_E, vx_E, y_E, vy_E, x_M, vx_M, y_M, vy_M] =>
    let abs_r := e.sqrt ((x_E - x_M) ^ 2 + (y_E - y_M) ^ 2)
    some [vx_E,
          -e.G * e.m_M * (x_E - x_M) / abs_r ^ 3,
          vy_E,
          -e.G * e.m_M * (y_E - y_M) / abs_r ^ 3,
          vx_M,
          -e.G * e.m_E * (x_M - x_E) / abs_r ^ 3,
          vy_M,
          -e.G * e.m_E * (y_M - y_E) / abs_r ^ 3]
  | _ => none

/-- Embedding of `FourBodyProblemSimple.initial_conditions`: the
two-body values plus angle/angular-velocity pairs for the two high
tides (`phi1 = 0`, `phi2 = π`, both with angular velocity `2π/T_M`). -/
def fourBodySimpleInitialConditions (e : Env K) : List K :=
  twoBodyInitialConditions e ++ [0, 2 * e.pi / e.T_M, e.pi, 2 * e.pi / e.T_M]

/-- Embedding of the static method `FourBodyProblemSimple.f` from
`gezeiten/differential_equations/four_body_problem_simple.py`
(tide particles of mass `m_O/2` each, no friction). -/
def fourBodySimple_f (e : Env K) (t : K) (r : List K) : Option (List K) :=
  match r with
  | [x_E, vx_E, y_E, vy_E, x_M, vx_M, y_M, vy_M, phi1, vphi1, phi2, vphi2] =>
    let distance_earth_moon := e.sqrt ((x_M - x_E) ^ 2 + (y_M - y_E) ^ 2)
    let distance_F1_moon := e.sqrt ((e.r_E * e.cos phi1 + x_E - x_M) ^ 2 +
      (e.r_E * e.sin phi1 + y_E - y_M) ^ 2)
    let distance_F2_moon := e.sqrt ((e.r_E * e.cos phi2 + x_E - x_M) ^ 2 +
      (e.r_E * e.sin phi2 + y_E - y_M) ^ 2)
    some [vx_E,
          -e.G * e.m_M * (x_E - x_M) / distance_earth_moon ^ 3,
          vy_E,
          -e.G * e.m_M * (y_E - y_M) / distance_earth_moon ^ 3,
          vx_M,
          -e.G * (e.m_E * (x_M - x_E) / distance_earth_moon ^ 3
            + 1 / 2 * e.m_O * ((x_M - e.r_E * e.cos phi1 - x_E) / distance_F1_moon ^ 3
              + (x_M - e.r_E * e.cos phi2 - x_E) / distance_F2_moon ^ 3)),
          vy_M,
          -e.G * (e.m_E * (y_M - y_E) / distance_earth_moon ^ 3
            + 1 / 2 * e.m_O * ((y_M - e.r_E * e.sin phi1 - y_E) / distance_F1_moon ^ 3
              + (y_M - e.r_E * e.sin phi2 - y_E) / distance_F2_moon ^ 3)),
          vphi1,
          1 / e.r_E * ((-e.G * e.m_M * (x_E - x_M) / distance_earth_moon ^ 3) * e.sin phi1
            - (-e.G * e.m_M * (y_E - y_M) / distance_earth_moon ^ 3) * e.cos phi1
            - e.m_M * e.G * ((e.r_E * e.sin phi1 + y_E - y_M) * e.cos phi1
              - (e.r_E * e.cos phi1 + x_E - x_M) * e.sin phi1) / distance_F1_moon ^ 3),
          vphi2,
          1 / e.r_E * ((-e.G * e.m_M * (x_E - x_M) / distance_earth_moon ^ 3) * e.sin phi2
            - (-e.G * e.m_M * (y_E - y_M) / distance_earth_moon ^ 3) * e.cos phi2
            - e.m_M * e.G * ((e.r_E * e.sin phi2 + y_E - y_M) * e.cos phi2
              - (e.r_E * e.cos phi2 + x_E - x_M) * e.sin phi2) / distance_F2_moon ^ 3)]
  | _ => none

/-- Embedding of `FourBodyProblemComplex.initial_conditions`: the
simple four-body values plus the Earth-rotation pair
(`phi_E = 0`, `vphi_E = 2π/(24*60*60)`). -/
def fourBodyComplexInitialConditions (e : Env K) : List K :=
  fourBodySimpleInitialConditions e ++ [0, 2 * e.pi / (24 * 60 * 60)]

/-- Embedding of the method `FourBodyProblemComplex.f` from
`gezeiten/differential_equations/four_body_problem_complex.py`.
The mutable instance field `self.m_O` is the explicit argument `mO`
(the constructor initializes it to the global constant `m_O`, and
`solve` may overwrite it); all other constants come from the
environment. Quadratic-drag friction couples each tide to the Earth
spin `vphi_E`. -/
def fourBodyComplex_f (e : Env K) (mO : K) (t : K) (r : List K) : Option (List K) :=
  match r with
  | [x_E, vx_E, y_E, vy_E, x_M, vx_M, y_M, vy_M, phi1, vphi1, phi2, vphi2, phi_E, vphi_E] =>
    let distance_earth_moon := e.sqrt ((x_M - x_E) ^ 2 + (y_M - y_E) ^ 2)
    let distance_F1_moon := e.sqrt ((e.r_E * e.cos phi1 + x_E - x_M) ^ 2 +
      (e.r_E * e.sin phi1 + y_E - y_M) ^ 2)
    let distance_F2_moon := e.sqrt ((e.r_E * e.cos phi2 + x_E - x_M) ^ 2 +
      (e.r_E * e.sin phi2 + y_E - y_M) ^ 2)
    some [vx_E,
          -e.G * e.m_M * (x_E - x_M) / distance_earth_moon ^ 3,
          vy_E,
          -e.G * e.m_M * (y_E - y_M) / distance_earth_moon ^ 3,
          vx_M,
          -e.G * (e.m_E * (x_M - x_E) / distance_earth_moon ^ 3
            + 1 / 2 * mO * ((x_M - e.r_E * e.cos phi1 - x_E) / distance_F1_moon ^ 3
              + (x_M - e.r_E * e.cos phi2 - x_E) / distance_F2_moon ^ 3)),
          vy_M,
          -e.G * (e.m_E * (y_M - y_E) / distance_earth_moon ^ 3
            + 1 / 2 * mO * ((y_M - e.r_E * e.sin phi1 - y_E) / distance_F1_moon ^ 3
              + (y_M - e.r_E * e.sin phi2 - y_E) / distance_F2_moon ^ 3)),
          vphi1,
          1 / e.r_E * ((-e.G * e.m_M * (x_E - x_M) / distance_earth_moon ^ 3) * e.sin phi1
            - (-e.G * e.m_M * (y_E - y_M) / distance_earth_moon ^ 3) * e.cos phi1
            - e.m_M * e.G * ((e.r_E * e.sin phi1 + y_E - y_M) * e.cos phi1
              - (e.r_E * e.cos phi1 + x_E - x_M) * e.sin phi1) / distance_F1_moon ^ 3)
            - e.r_E * e.k * |vphi1 - vphi_E| * (vphi1 - vphi_E),
          vphi2,
          1 / e.r_E * ((-e.G * e.m_M * (x_E - x_M) / distance_earth_moon ^ 3) * e.sin phi2
            - (-e.G * e.m_M * (y_E - y_M) / distance_earth_moon ^ 3) * e.cos phi2
            - e.m_M * e.G * ((e.r_E * e.sin phi2 + y_E - y_M) * e.cos phi2
              - (e.r_E * e.cos phi2 + x_E - x_M) * e.sin phi2) / distance_F2_moon ^ 3)
            - e.r_E * e.k * |vphi2 - vphi_E| * (vphi2 - vphi_E),
          vphi_E,
          5 / 4 * e.r_E * mO / e.m_E * e.k *
            (|vphi1 - vphi_E| * (vphi1 - vphi_E) + |vphi2 - vphi_E| * (vphi2 - vphi_E))]
  | _ => none

/-- Embedding of `NBodyProblem.initial_conditions` from
`gezeiten/differential_equations/n_body_problem.py`, with the class
attribute `N` as parameter: ten Earth/Moon/Earth-rotation entries,
then for `i = 0, 2, ..., 2N-2` the pair (angle `π/N * i`,
angular velocity `2π/T_M`). -/
def nBodyInitialConditions (e : Env K) (N : ℕ) : List K :=
  [-r_C e,
   0,
   0,
   -2 * e.pi * r_C e / e.T_M,
   e.r_M - r_C e,
   0,
   0,
   2 * e.pi * (e.r_M - r_C e) / e.T_M,
   0,
   2 * e.pi / (24 * 60 * 60)] ++
  (List.range N).flatMap (fun j => [e.pi / (N : K) * ((2 * j : ℕ) : K), 2 * e.pi / e.T_M])

/-- Embedding of the static method `NBodyProblem.f`, with the class
attribute `N` (fixed to 10 in the source) as parameter. The state is
ten Earth/Moon/Earth-rotation entries followed by the `2N` tide
entries `r_N`; Python raises an `IndexError` when fewer than `2N` tide
entries are present, modelled as `none`. The loop body for tide `j`
reads `r_N[2j]`, `r_N[2j+1]` and accumulates the Moon-pull and
friction sums; the right-hand side uses the global constant `m_O`
(`e.m_O`), not any instance field. -/
def nBody_f (e : Env K) (N : ℕ) (t : K) (r : List K) : Option (List K) :=
  match r with
  | x_E :: vx_E :: y_E :: vy_E :: x_M :: vx_M :: y_M :: vy_M :: phi_E :: vphi_E :: r_N =>
    if 2 * N ≤ r_N.length then
      let distance_earth_moon := e.sqrt ((x_M - x_E) ^ 2 + (y_M - y_E) ^ 2)
      let distance_FN_moon := fun (phi : K) => e.sqrt ((e.r_E * e.cos phi + x_E - x_M) ^ 2 +
        (e.r_E * e.sin phi + y_E - y_M) ^ 2)
      let f_N := (List.range N).flatMap (fun j =>
        let phi := r_N.getD (2 * j) 0
        let vphi := r_N.getD (2 * j + 1) 0
        [vphi,
         1 / e.r_E * ((-e.G * e.m_M * (x_E - x_M) / distance_earth_moon ^ 3) * e.sin phi
           - (-e.G * e.m_M * (y_E - y_M) / distance_earth_moon ^ 3) * e.cos phi
           - e.m_M * e.G * ((e.r_E * e.sin phi + y_E - y_M) * e.cos phi
             - (e.r_E * e.cos phi + x_E - x_M) * e.sin phi) / distance_FN_moon phi ^ 3)
           - e.r_E * e.k * |vphi - vphi_E| * (vphi - vphi_E)])
      let sum_M_x := ((List.range N).map (fun j =>
        let phi := r_N.getD (2 * j) 0
        (x_M - e.r_E * e.cos phi - x_E) / distance_FN_moon phi ^ 3)).sum
      let sum_M_y := ((List.range N).map (fun j =>
        let phi := r_N.getD (2 * j) 0
        (y_M - e.r_E * e.sin phi - y_E) / distance_FN_moon phi ^ 3)).sum
      let sum_E := ((List.range N).map (fun j =>
        let vphi := r_N.getD (2 * j + 1) 0
        |vphi - vphi_E| * (vphi - vphi_E))).sum
      some ([vx_E,
             -e.G * e.m_M * (x_E - x_M) / distance_earth_moon ^ 3,
             vy_E,
             -e.G * e.m_M * (y_E - y_M) / distance_earth_moon ^ 3,
             vx_M,
             -e.G * (e.m_E * (x_M - x_E) / distance_earth_moon ^ 3 + e.m_O / (N : K) * sum_M_x),
             vy_M,
             -e.G * (e.m_E * (y_M - y_E) / distance_earth_moon ^ 3 + e.m_O / (N : K) * sum_M_y),
             vphi_E,
             5 / 2 * e.r_E * e.m_O / ((N : K) * e.m_E) * e.k * sum_E] ++ f_N)
    else none
  | _ => none

/-- Concrete rational environment used for witnesses: the exact
decimal constants of `gezeiten/constants.py`, with rational stand-in
functions for the transcendental primitives (the claims proved are
uniform in those primitives). -/
def ratEnv : Env ℚ where
  sqrt := fun x => x
  sin := fun x => x
  cos := fun x => x
  pi := 0
  G := 667430 / 10 ^ 16
  m_E := 59721986 * 10 ^ 17
  m_O := 14 * 10 ^ 20
  r_E := 63675 * 10 ^ 2
  m_M := 73459 * 10 ^ 18
  r_M := 3836 * 10 ^ 5
  T_M := 2732166140 * 24 * 3600 / 10 ^ 8
  k := 2 / 10 ^ 12
  tau := 21 / 10 ^ 4

/-- C9: every model right-hand side is autonomous: for all times `t`
and `t'` and every state vector `r`, the four rhs functions
(`TwoBodyProblem.f`, `FourBodyProblemSimple.f`,
`FourBodyProblemComplex.f` for any ocean mass, `NBodyProblem.f` for
any `N`) return the same value at `t` and at `t'`. -/
theorem rhs_autonomous :
    ∀ (e : Env K) (t t' : K) (r : List K) (N : ℕ) (mO : K),
      twoBodyProblem_f e t r = twoBodyProblem_f e t' r ∧
      fourBodySimple_f e t r = fourBodySimple_f e t' r ∧
      fourBodyComplex_f e mO t r = fourBodyComplex_f e mO t' r ∧
      nBody_f e N t r = nBody_f e N t' r :=
  fun _ _ _ _ _ _ => ⟨rfl, rfl, rfl, rfl⟩

/-- C7: for every concrete model variant, on a state vector of the
matching length (8, 12, 14, `10+2N`), the rhs returns `some` output
whose length equals the input length, which equals the length of that
variant's `initial_conditions`. -/
theorem rhs_length_preservation (e : Env K) :
    ((twoBodyInitialConditions e : List K).length = 8 ∧
      ∀ (t : K) (r : List K), r.length = 8 →
        ∃ out, twoBodyProblem_f e t r = some out ∧ out.length = 8) ∧
    ((fourBodySimpleInitialConditions e : List K).length = 12 ∧
      ∀ (t : K) (r : List K), r.length = 12 →
        ∃ out, fourBodySimple_f e t r = some out ∧ out.length = 12) ∧
    ((fourBodyComplexInitialConditions e : List K).length = 14 ∧
      ∀ (mO t : K) (r : List K), r.length = 14 →
        ∃ out, fourBodyComplex_f e mO t r = some out ∧ out.length = 14) ∧
    (∀ N : ℕ, (nBodyInitialConditions e N).length = 10 + 2 * N ∧
      ∀ (t : K) (r : List K), r.length = 10 + 2 * N →
        ∃ out, nBody_f e N t r = some out ∧ out.length = 10 + 2 * N) := by
  refine ⟨⟨?_, ?_⟩, ⟨?_, ?_⟩, ⟨?_, ?_⟩, fun N => ⟨?_, ?_⟩⟩
  · simp [twoBodyInitialConditions]
  · intro t r hr
    rcases r with _ | ⟨x1, r⟩; · simp at hr
    rcases r with _ | ⟨x2, r⟩; · simp at hr
    rcases r with _ | ⟨x3, r⟩; · simp at hr
    rcases r with _ | ⟨x4, r⟩; · simp at hr
    rcases r with _ | ⟨x5, r⟩; · simp at hr
    rcases r with _ | ⟨x6, r⟩; · simp at hr
    rcases r with _ | ⟨x7, r⟩; · simp at hr
    rcases r with _ | ⟨x8, r⟩; · simp at hr
    rcases r with _ | ⟨x9, r⟩
    · exact ⟨_, rfl, rfl⟩
    · simp at hr
  · simp [fourBodySimpleInitialConditions, twoBodyInitialConditions]
  · intro t r hr
    rcases r with _ | ⟨x1, r⟩; · simp at hr
    rcases r with _ | ⟨x2, r⟩; · simp at hr
    rcases r with _ | ⟨x3, r⟩; · simp at hr
    rcases r with _ | ⟨x4, r⟩; · simp at hr
    rcases r with _ | ⟨x5, r⟩; · simp at hr
    rcases r with _ | ⟨x6, r⟩; · simp at hr
    rcases r with _ | ⟨x7, r⟩; · simp at hr
    rcases r with _ | ⟨x8, r⟩; · simp at hr
    rcases r with _ | ⟨x9, r⟩; · simp at hr
    rcases r with _ | ⟨x10, r⟩; · simp at hr
    rcases r with _ | ⟨x11, r⟩; · simp at hr
    rcases r with _ | ⟨x12, r⟩; · simp at hr
    rcases r with _ | ⟨x13, r⟩
    · exact ⟨_, rfl, rfl⟩
    · simp at hr
  · simp [fourBodyComplexInitialConditions, fourBodySimpleInitialConditions,
      twoBodyInitialConditions]
  · intro mO t r hr
    rcases r with _ | ⟨x1, r⟩; · simp at hr
    rcases r with _ | ⟨x2, r⟩; · simp at hr
    rcases r with _ | ⟨x3, r⟩; · simp at hr
    rcases r with _ | ⟨x4, r⟩; · simp at hr
    rcases r with _ | ⟨x5, r⟩; · simp at hr
    rcases r with _ | ⟨x6, r⟩; · simp at hr
    rcases r with _ | ⟨x7, r⟩; · simp at hr
    rcases r with _ | ⟨x8, r⟩; · simp at hr
    rcases r with _ | ⟨x9, r⟩; · simp at hr
    rcases r with _ | ⟨x10, r⟩; · simp at hr
    rcases r with _ | ⟨x11, r⟩; · simp at hr
    rcases r with _ | ⟨x12, r⟩; · simp at hr
    rcases r with _ | ⟨x13, r⟩; · simp at hr
    rcases r with _ | ⟨x14, r⟩; · simp at hr
    rcases r with _ | ⟨x15, r⟩
    · exact ⟨_, rfl, rfl⟩
    · simp at hr
  · simp [nBodyInitialConditions, List.length_flatMap, Function.comp_def,
      List.map_const', List.sum_replicate, smul_eq_mul]
    omega
  · intro t r hr
    rcases r with _ | ⟨x1, r⟩; · simp at hr; omega
    rcases r with _ | ⟨x2, r⟩; · simp at hr; omega
    rcases r with _ | ⟨x3, r⟩; · simp at hr; omega
    rcases r with _ | ⟨x4, r⟩; · simp at hr; omega
    rcases r with _ | ⟨x5, r⟩; · simp at hr; omega
    rcases r with _ | ⟨x6, r⟩; · simp at hr; omega
    rcases r with _ | ⟨x7, r⟩; · simp at hr; omega
    rcases r with _ | ⟨x8, r⟩; · simp at hr; omega
    rcases r with _ | ⟨x9, r⟩; · simp at hr; omega
    rcases r with _ | ⟨x10, r⟩; · simp at hr; omega
    have hrN : r.length = 2 * N := by
      simp at hr
      omega
    simp only [nBody_f, hrN, le_refl, if_true]
    refine ⟨_, rfl, ?_⟩
    simp [List.length_flatMap, Function.comp_def, List.map_const',
      List.sum_replicate, smul_eq_mul]
    omega

/-- C7 witness: the theorem applies with the concrete rational
environment at concrete states of the matching lengths. -/
theorem rhs_length_preservation_witness :
    ((List.replicate 8 (1 : ℚ)).length = 8 ∧
      ∃ out, twoBodyProblem_f ratEnv 0 (List.replicate 8 (1 : ℚ)) = some out ∧
        out.length = 8) ∧
    ((List.replicate 30 (1 : ℚ)).length = 10 + 2 * 10 ∧
      ∃ out, nBody_f ratEnv 10 0 (List.replicate 30 (1 : ℚ)) = some out ∧
        out.length = 10 + 2 * 10) :=
  ⟨⟨by simp, (rhs_length_preservation ratEnv).1.2 0 _ (by simp)⟩,
   ⟨by simp, ((rhs_length_preservation ratEnv).2.2.2 10).2 0 _ (by simp)⟩⟩

/-- Helper: reading the first component of the `j`-th two-element block
of a flat map over `List.range N`. -/
theorem range_flatMap_two_getD {β : Type} (g1 g2 : ℕ → β) (d : β) :
    ∀ N j : ℕ, j < N →
      ((List.range N).flatMap (fun i => [g1 i, g2 i])).getD (2 * j) d = g1 j := by
  intro N
  induction N with
  | zero => intro j hj; omega
  | succ n ih =>
    intro j hj
    have hlen : ((List.range n).flatMap (fun i => [g1 i, g2 i])).length = 2 * n := by
      simp [List.length_flatMap, Function.comp_def, List.map_const',
        List.sum_replicate, smul_eq_mul]
      omega
    rw [List.range_succ, List.flatMap_append]
    rcases Nat.lt_or_ge j n with h | h
    · rw [List.getD_append _ _ _ _ (by omega)]
      exact ih j h
    · have hjn : j = n := by omega
      subst hjn
      rw [List.getD_append_right _ _ _ _ (by omega), hlen]
      simp

/-- Reordering of a 14-component `FourBodyProblemComplex` vector
(layout `..., phi1, vphi1, phi2, vphi2, phi_E, vphi_E`) into the
`NBodyProblem` layout (`..., phi_E, vphi_E, phi1, vphi1, phi2, vphi2`):
the first 8 entries stay, entries 12-13 move to positions 8-9, and
entries 8-11 move to the end. -/
def toNBodyOrder (l : List K) : List K :=
  l.take 8 ++ [l.getD 12 0, l.getD 13 0] ++ (l.drop 8).take 4

/-- C6: for `N = 2`, `NBodyProblem.f` is `FourBodyProblemComplex.f`
with ocean mass equal to the nominal constant `m_O`, up to the state
permutation that puts `(phi_E, vphi_E)` at indices 8-9 instead of
12-13 (each tide particle then carries `m_O/N = m_O/2` and the
Earth-spin scaling factor `(5/2)/N` equals `5/4`); moreover the `N`
initial tide angles of `NBodyProblem.initial_conditions` are
`π/N * i` for `i = 0, 2, ..., 2N-2`. -/
theorem nBody_two_refines_fourBodyComplex :
    ∀ (e : Env K) (t x_E vx_E y_E vy_E x_M vx_M y_M vy_M
        phi1 vphi1 phi2 vphi2 phi_E vphi_E : K),
      nBody_f e 2 t [x_E, vx_E, y_E, vy_E, x_M, vx_M, y_M, vy_M,
          phi_E, vphi_E, phi1, vphi1, phi2, vphi2] =
        Option.map toNBodyOrder (fourBodyComplex_f e e.m_O t
          [x_E, vx_E, y_E, vy_E, x_M, vx_M, y_M, vy_M,
           phi1, vphi1, phi2, vphi2, phi_E, vphi_E]) ∧
      (∀ N j : ℕ, j < N →
        (nBodyInitialConditions e N).getD (10 + 2 * j) 0 =
          e.pi / (N : K) * ((2 * j : ℕ) : K)) := by
  intro e t x_E vx_E y_E vy_E x_M vx_M y_M vy_M phi1 vphi1 phi2 vphi2 phi_E vphi_E
  constructor
  · have hcond : 2 * 2 ≤ ([phi1, vphi1, phi2, vphi2] : List K).length := by norm_num
    simp only [nBody_f, fourBodyComplex_f, Option.map_some', if_pos hcond]
    congr 1
    norm_num [toNBodyOrder, List.range_succ]
    exact ⟨Or.inl (Or.inl (by ring)), Or.inl (Or.inl (by ring)),
      Or.inl (Or.inl (by ring))⟩
  · intro N j hj
    rw [nBodyInitialConditions, List.getD_append_right _ _ _ _ (by simp),
      show 10 + 2 * j - ([-r_C e, 0, 0, -2 * e.pi * r_C e / e.T_M,
        e.r_M - r_C e, 0, 0, 2 * e.pi * (e.r_M - r_C e) / e.T_M, 0,
        2 * e.pi / (24 * 60 * 60)] : List K).length = 2 * j by simp]
    exact range_flatMap_two_getD _ _ _ N j hj

/-- C6 witness: the equivalence and the initial-angle formula hold at
the concrete rational environment, the all-zero state, and `j = 0`,
`N = 2`. -/
theorem nBody_two_refines_fourBodyComplex_witness :
    nBody_f ratEnv 2 0 [0, 0, 0, 0, 0, 0, 0, 0, 0, 0, 0, 0, 0, 0] =
      Option.map toNBodyOrder (fourBodyComplex_f ratEnv ratEnv.m_O 0
        [0, 0, 0, 0, 0, 0, 0, 0, 0, 0, 0, 0, 0, 0]) ∧
    ((0 : ℕ) < 2 ∧ (nBodyInitialConditions ratEnv 2).getD (10 + 2 * 0) 0 =
      ratEnv.pi / ((2 : ℕ) : ℚ) * ((2 * 0 : ℕ) : ℚ)) :=
  ⟨(nBody_two_refines_fourBodyComplex ratEnv 0 0 0 0 0 0 0 0 0 0 0 0 0 0 0).1,
   by norm_num,
   (nBody_two_refines_fourBodyComplex ratEnv 0 0 0 0 0 0 0 0 0 0 0 0 0 0 0).2
     2 0 (by norm_num)⟩

/-- Instance state of a `FourBodyProblemComplex` object:
`initial_conditions` (class attribute), the constructor-set
`time_boundaries` and `data_points_amount`, the mutable ocean-mass
field `m_O`, and the `solution` filled in by `solve`. -/
structure FourBodyComplexModel (K : Type) where
  initial_conditions : List K
  time_boundaries : K × K
  data_points_amount : ℕ
  m_O : K
  solution : Option (List K × List (List K))

/-- Embedding of `FourBodyProblemComplex.__init__`: fixes the class
initial conditions, stores the two constructor arguments and sets the
mutable ocean mass to the global constant `m_O`. -/
def mkFourBodyComplex (e : Env K) (tb : K × K) (n : ℕ) : FourBodyComplexModel K :=
  { initial_conditions := fourBodyComplexInitialConditions e
    time_boundaries := tb
    data_points_amount := n
    m_O := e.m_O
    solution := none }

/-- Embedding of `FourBodyProblemComplex.solve(solver, m_O)`: the body
first executes `self.m_O = m_O`, then runs the solver on the updated
instance and stores the result in `self.solution` (the solver output
is kept as the raw `(t_points, state_matrix)` pair; the reshaping into
a named dictionary only renames columns). -/
def fourBodyComplexSolve (solver : FourBodyComplexModel K → List K × List (List K))
    (mdl : FourBodyComplexModel K) (mO : K) : FourBodyComplexModel K :=
  let mdl' := { mdl with m_O := mO }
  { mdl' with solution := some (solver mdl') }

/-- Embedding of calling `FourBodyProblemComplex.solve` without an
explicit `m_O` argument: the Python default `m_O=m_O` passes the
global nominal constant `e.m_O`. -/
def fourBodyComplexSolveDefault (e : Env K)
    (solver : FourBodyComplexModel K → List K × List (List K))
    (mdl : FourBodyComplexModel K) : FourBodyComplexModel K :=
  fourBodyComplexSolve solver mdl e.m_O

/-- C10: every call to `FourBodyProblemComplex.solve` assigns its
`m_O` argument to the mutable ocean-mass field before integrating (the
stored solution is the solver's output on the already-updated
instance); the argument defaults to the nominal global constant, so
calling `solve()` without an explicit `m_O` overwrites any previously
set (e.g. fitted) ocean mass with `e.m_O`, while `initial_conditions`,
`time_boundaries` and `data_points_amount` are left unchanged. -/
theorem fourBodyComplexSolve_frame :
    ∀ (e : Env K) (solver : FourBodyComplexModel K → List K × List (List K))
      (mdl : FourBodyComplexModel K) (mO : K),
      (fourBodyComplexSolve solver mdl mO).m_O = mO ∧
      (fourBodyComplexSolve solver mdl mO).solution =
        some (solver { mdl with m_O := mO }) ∧
      fourBodyComplexSolveDefault e solver mdl =
        fourBodyComplexSolve solver mdl e.m_O ∧
      (fourBodyComplexSolveDefault e solver mdl).m_O = e.m_O ∧
      (fourBodyComplexSolve solver mdl mO).initial_conditions =
        mdl.initial_conditions ∧
      (fourBodyComplexSolve solver mdl mO).time_boundaries =
        mdl.time_boundaries ∧
      (fourBodyComplexSolve solver mdl mO).data_points_amount =
        mdl.data_points_amount :=
  fun _ _ _ _ => ⟨rfl, rfl, rfl, rfl, rfl, rfl, rfl⟩

/-- Embedding of `_calculate_current_tau` from
`gezeiten/exercises/exercise_2_3_c.py`, applied to the pair of series
`(solution["t"], solution["vphi_E"])`: `t_one_year` is half the sample
count (`int(len(t)/2)`), the spin angular velocity is extrapolated 100
years (`100 * 365.24 * 24 * 3600` seconds, the decimal `365.24`
written as `36524/100`) along the secant between sample `t_one_year`
and the last sample, and the result is the day-length increment
`2π(1/final - 1/initial)`. -/
def calculateCurrentTau (e : Env K) (tv : List K × List K) : K :=
  let ts := tv.1
  let vphi := tv.2
  let t_one_year := ts.length / 2
  let final_angular_velocity :=
    vphi.getD t_one_year 0 + 100 * (36524 / 100) * 24 * 3600 *
      ((vphi.getD (vphi.length - 1) 0 - vphi.getD t_one_year 0) /
        (ts.getD (ts.length - 1) 0 - ts.getD t_one_year 0))
  2 * e.pi * (1 / final_angular_velocity - 1 / vphi.getD t_one_year 0)

/-- Modelled from the spec's description of the estimator (the code
computes a two-point secant instead): a least-squares linear
regression of the spin angular velocity over all samples of the second
half of the horizon (indices `len/2` to `len-1`), whose slope replaces
the secant slope in the same day-length computation. -/
def specRegressionTau (e : Env K) (tv : List K × List K) : K :=
  let ts := tv.1
  let vphi := tv.2
  let t_one_year := ts.length / 2
  let idx := (List.range (ts.length - t_one_year)).map (fun i => t_one_year + i)
  let n : K := ((idx.length : ℕ) : K)
  let sx := (idx.map (fun i => ts.getD i 0)).sum
  let sy := (idx.map (fun i => vphi.getD i 0)).sum
  let sxy := (idx.map (fun i => ts.getD i 0 * vphi.getD i 0)).sum
  let sxx := (idx.map (fun i => ts.getD i 0 * ts.getD i 0)).sum
  let slope := (n * sxy - sx * sy) / (n * sxx - sx * sx)
  let final_angular_velocity :=
    vphi.getD t_one_year 0 + 100 * (36524 / 100) * 24 * 3600 * slope
  2 * e.pi * (1 / final_angular_velocity - 1 / vphi.getD t_one_year 0)

/-- Exit predicate of the fitting loop: the achieved/target ratio is
within the relative tolerance `accuracy = 0.01` of 1. -/
def inTolerance (e : Env K) (sol : K → List K × List K) (x : K) : Prop :=
  |1 - calculateCurrentTau e (sol x) / e.tau| ≤ 1 / 100

/-- Embedding of the `while` loop of `_fit_mass_oceans`, with explicit
fuel because the Python loop has no iteration cap: `sol` abstracts the
composite `four_body_problem_complex.solve(m_O=x)` followed by reading
`(solution["t"], solution["vphi_E"])`. Each round solves with the
current guess, computes `current_tau`, exits with the current guess
when `abs(1 - current_tau/tau) <= 0.01`, and otherwise divides the
guess by `current_tau/tau` and repeats; `none` means the fuel ran out
with the exit condition never reached. -/
def fitLoop (e : Env K) (sol : K → List K × List K) : ℕ → K → Option K
  | 0, current_m_O =>
    if |1 - calculateCurrentTau e (sol current_m_O) / e.tau| ≤ 1 / 100 then
      some current_m_O
    else none
  | fuel + 1, current_m_O =>
    if |1 - calculateCurrentTau e (sol current_m_O) / e.tau| ≤ 1 / 100 then
      some current_m_O
    else fitLoop e sol fuel
      (current_m_O / (calculateCurrentTau e (sol current_m_O) / e.tau))

/-- Embedding of `_fit_mass_oceans`: the iteration starts from the
nominal ocean mass `m_O`. -/
def fitMassOceans (e : Env K) (sol : K → List K × List K) (fuel : ℕ) : Option K :=
  fitLoop e sol fuel e.m_O

/-- Iterates of the fitting update starting from `m`: each step
divides the guess by the achieved/target ratio
`current_tau(sol guess) / tau`. -/
def iterGuess (e : Env K) (sol : K → List K × List K) (m : K) : ℕ → K
  | 0 => m
  | j + 1 =>
    iterGuess e sol m j /
      (calculateCurrentTau e (sol (iterGuess e sol m j)) / e.tau)

/-- Guess sequence of `_fit_mass_oceans`, starting from the nominal
constant `m_O`. -/
def fitGuess (e : Env K) (sol : K → List K × List K) : ℕ → K :=
  iterGuess e sol e.m_O

/-- Helper: shifting the iterate sequence by one application of the
update. -/
theorem iterGuess_shift (e : Env K) (sol : K → List K × List K) (m : K) :
    ∀ j : ℕ, iterGuess e sol m (j + 1) =
      iterGuess e sol (m / (calculateCurrentTau e (sol m) / e.tau)) j := by
  intro j
  induction j with
  | zero => rfl
  | succ j ih => rw [iterGuess, ih, iterGuess]

/-- Helper: the fuelled loop returns the first in-tolerance iterate. -/
theorem fitLoop_exit (e : Env K) (sol : K → List K × List K) :
    ∀ (fuel kexit : ℕ) (m : K), kexit ≤ fuel →
      (∀ j, j < kexit → ¬ inTolerance e sol (iterGuess e sol m j)) →
      inTolerance e sol (iterGuess e sol m kexit) →
      fitLoop e sol fuel m = some (iterGuess e sol m kexit) := by
  intro fuel
  induction fuel with
  | zero =>
    intro kexit m hle hbefore hexit
    interval_cases kexit
    simp only [inTolerance, iterGuess] at hexit
    rw [fitLoop, if_pos hexit]
    rfl
  | succ fuel ih =>
    intro kexit m hle hbefore hexit
    match kexit with
    | 0 =>
      have hexit' := hexit
      simp only [inTolerance, iterGuess] at hexit'
      rw [fitLoop, if_pos hexit']
      rfl
    | kexit + 1 =>
      have h0 : ¬ inTolerance e sol (iterGuess e sol m 0) := hbefore 0 (by omega)
      simp only [inTolerance, iterGuess] at h0
      rw [fitLoop, if_neg h0, iterGuess_shift]
      rw [iterGuess_shift] at hexit
      refine ih kexit _ (by omega) ?_ hexit
      intro j hj
      rw [← iterGuess_shift]
      exact hbefore (j + 1) (by omega)

/-- C3 (amended): the fitter solves with the current guess, estimates
the achieved drift rate from the stored series (via the two-point
secant of `vphi_E` between the midpoint sample and the last sample,
extrapolated 100 years — not a least-squares regression over all
second-half samples), divides the guess by the ratio achieved/target,
and repeats until `|1 - achieved/target| ≤ 0.01`: the result of the
loop is exactly the first iterate of that update whose ratio is in
tolerance. -/
theorem fitMassOceans_characterization (e : Env K) (sol : K → List K × List K)
    (fuel kexit : ℕ) (hle : kexit ≤ fuel)
    (hbefore : ∀ j, j < kexit → ¬ inTolerance e sol (fitGuess e sol j))
    (hexit : inTolerance e sol (fitGuess e sol kexit)) :
    fitMassOceans e sol fuel = some (fitGuess e sol kexit) ∧
    ∀ j, fitGuess e sol (j + 1) =
      fitGuess e sol j / (calculateCurrentTau e (sol (fitGuess e sol j)) / e.tau) :=
  ⟨fitLoop_exit e sol fuel kexit e.m_O hle hbefore hexit, fun _ => rfl⟩

/-- Environment used for the fitting witnesses and counterexample:
the rational constants with `pi := 1` and a target `tau` equal to the
value the code estimator produces on the series
`([0, 1, 2], [5, 1, 2])`, so that the achieved/target ratio is exactly
1 there. -/
def fitEnv : Env ℚ :=
  { ratEnv with pi := 1, tau := -6311347200 / 3155673601 }

/-- C3 witness: with a constant solution map producing the series
`([0, 1, 2], [5, 1, 2])`, the very first guess is in tolerance and the
loop returns the nominal ocean mass. -/
theorem fitMassOceans_characterization_witness :
    ((0 : ℕ) ≤ 5 ∧
      inTolerance fitEnv (fun _ => ([0, 1, 2], [5, 1, 2]))
        (fitGuess fitEnv (fun _ => ([0, 1, 2], [5, 1, 2])) 0)) ∧
    fitMassOceans fitEnv (fun _ => ([0, 1, 2], [5, 1, 2])) 5 =
      some (fitGuess fitEnv (fun _ => ([0, 1, 2], [5, 1, 2])) 0) :=
  ⟨⟨by norm_num,
    by norm_num [inTolerance, calculateCurrentTau, fitGuess, iterGuess, fitEnv, ratEnv]⟩,
   (fitMassOceans_characterization fitEnv (fun _ => ([0, 1, 2], [5, 1, 2])) 5 0
     (by norm_num) (fun j hj => absurd hj (by omega))
     (by norm_num [inTolerance, calculateCurrentTau, fitGuess, iterGuess, fitEnv, ratEnv])).1⟩

/-- C3 counterexample: on the solved series
`([0,...,7], [1, 1, 1, 1, 1, 2, 1, 1])` the code's estimator (secant
between the midpoint and last sample, slope `0`, result `0`) differs
from the spec-described least-squares regression over the second-half
samples (slope `-1/10`, nonzero result), so the claim that the drift
rate is estimated "by linear regression over the second half" is false
of the code. -/
theorem calculateCurrentTau_not_regression :
    calculateCurrentTau fitEnv
        ([0, 1, 2, 3, 4, 5, 6, 7], [1, 1, 1, 1, 1, 2, 1, 1]) ≠
      specRegressionTau fitEnv
        ([0, 1, 2, 3, 4, 5, 6, 7], [1, 1, 1, 1, 1, 2, 1, 1]) := by
  norm_num [calculateCurrentTau, specRegressionTau, fitEnv, ratEnv, List.range_succ]

/-- C5: the fitting loop has no iteration cap: its only exit condition
is the tolerance test, so whenever no iterate of the guess sequence is
ever in tolerance, the loop fails to terminate within any fuel bound
(`none` for every fuel). -/
theorem fitLoop_no_iteration_cap (e : Env K) (sol : K → List K × List K)
    (hnever : ∀ j, ¬ inTolerance e sol (fitGuess e sol j)) :
    ∀ fuel, fitMassOceans e sol fuel = none := by
  have hgen : ∀ (fuel : ℕ) (m : K),
      (∀ j, ¬ inTolerance e sol (iterGuess e sol m j)) →
      fitLoop e sol fuel m = none := by
    intro fuel
    induction fuel with
    | zero =>
      intro m hm
      have h0 := hm 0
      simp only [inTolerance, iterGuess] at h0
      rw [fitLoop, if_neg h0]
    | succ fuel ih =>
      intro m hm
      have h0 := hm 0
      simp only [inTolerance, iterGuess] at h0
      rw [fitLoop, if_neg h0]
      refine ih _ ?_
      intro j
      rw [← iterGuess_shift]
      exact hm (j + 1)
  intro fuel
  exact hgen fuel e.m_O hnever

/-- C5 witness: with `pi = 0` every estimated drift rate is `0`, the
ratio is never within tolerance of 1, and the loop returns `none` for
a concrete fuel. -/
theorem fitLoop_no_iteration_cap_witness :
    fitMassOceans ratEnv (fun _ => ([0, 1, 2, 3], [1, 1, 1, 1])) 5 = none :=
  fitLoop_no_iteration_cap ratEnv (fun _ => ([0, 1, 2, 3], [1, 1, 1, 1]))
    (fun j => by norm_num [inTolerance, calculateCurrentTau, ratEnv]) 5

end Gezeiten
